import Mathlib

/-!
Shallow embedding of the QVANTO data-catalog core (src/app.py):
the fraud scoring engine (RULES, THRESHOLD, score_claim) and the
lineage graph component (add_lineage, get_lineage, delete_asset)
over an in-memory entity store. Python floats are modelled as
rationals; SQL rows as Lean structures; the SQLAlchemy session as
explicit state passing on a Store value; HTTP error responses as an
explicit error type.
-/

set_option maxHeartbeats 1000000

namespace QVANTO

/-! ## Fraud scoring engine (src/app.py lines 325-384) -/

/-- The transient claim record built inside score_claim for rule
evaluation (class Claim, src/app.py lines 87-98, restricted to the
fields the scoring path sets). Amount is a Python float, modelled as a
rational. -/
structure Claim where
  claim_number : String
  policy_number : String
  amount : ℚ
  channel : String
  city : String
  prior_claims : ℤ
deriving DecidableEq

/-- One entry of the rule table: predicate, weight, reason string.
A predicate that raises is modelled as returning none. -/
structure ScoreRule where
  pred : Claim → Option Bool
  weight : ℚ
  note : String

/-- Python str.lower restricted to the character level: map every
character to lower case. -/
def strLower (s : String) : String := ⟨s.data.map Char.toLower⟩

/-- Python str.strip: drop whitespace from both ends. -/
def strStrip (s : String) : String :=
  ⟨((s.data.dropWhile Char.isWhitespace).reverse.dropWhile Char.isWhitespace).reverse⟩

/-- The rule table RULES (src/app.py lines 325-330). Each source lambda
is total on a well-typed claim, so every predicate here returns some. -/
def RULES : List ScoreRule :=
  [ ⟨fun c => some (decide (c.amount > 300000)), 50, "High claim amount > 300k"⟩,
    ⟨fun c => some (decide (c.prior_claims ≥ 3)), 25, "Three or more prior claims"⟩,
    ⟨fun c => some (c.channel == "online"), 5, "Online submission"⟩,
    ⟨fun c => some (["unknown", "na", ""].contains (strLower c.city)), 10, "Missing/unknown city"⟩ ]

/-- THRESHOLD (src/app.py line 331). -/
def THRESHOLD : ℚ := 60

/-- The JSON body of POST /claims/score: each field may be absent. -/
structure ScoreInput where
  claim_number : Option String
  policy_number : Option String
  amount : Option ℚ
  prior_claims : Option ℤ
  channel : Option String
  city : Option String
deriving DecidableEq

/-- The response of score_claim (src/app.py lines 374-379). -/
structure ScoreResult where
  claim_number : String
  fraud_label : String
  fraud_score : ℚ
  reasons : List String
deriving DecidableEq

/-- Input parsing and normalization plus construction of the temporary
claim object (src/app.py lines 339-353): defaults amount to 0,
prior_claims to 0, channel and city to the empty string, then
lower-cases and trims channel and city. -/
def normClaim (input : ScoreInput) : Claim :=
  { claim_number := input.claim_number.getD "NA"
    policy_number := input.policy_number.getD "NA"
    amount := input.amount.getD 0
    channel := strStrip (strLower (input.channel.getD ""))
    city := strStrip (strLower (input.city.getD ""))
    prior_claims := input.prior_claims.getD 0 }

/-- The rule-application loop (src/app.py lines 356-364): fold over the
rule table accumulating score and reasons; a predicate returning none
(an exception in the source, swallowed by the bare except) or false
leaves the accumulator unchanged. -/
def applyRules (rules : List ScoreRule) (c : Claim) : ℚ × List String :=
  rules.foldl
    (fun acc r =>
      match r.pred c with
      | some true => (acc.1 + r.weight, acc.2 ++ [r.note])
      | _ => acc)
    (0, [])

/-- score_claim (src/app.py lines 333-379): parse and normalize the
input, run the rules, clamp the score above at 100, label against
THRESHOLD. -/
def score_claim (input : ScoreInput) : ScoreResult :=
  let claim := normClaim input
  let res := applyRules RULES claim
  let fraud_score := min res.1 100
  let fraud_label := if fraud_score ≥ THRESHOLD then "SUSPICIOUS" else "OK"
  { claim_number := claim.claim_number
    fraud_label := fraud_label
    fraud_score := fraud_score
    reasons := res.2 }

/-- A rule is triggered on a claim when its predicate evaluates without
error to true. -/
def triggers (c : Claim) (r : ScoreRule) : Bool :=
  r.pred c == some true

/-! ## Lineage graph component (src/app.py lines 65-85, 231-243, 278-320) -/

/-- An asset row (class Asset, src/app.py lines 65-72). The timestamp
is opaque data here, carried as a string; tags are carried by name. -/
structure Asset where
  id : ℤ
  name : String
  type : String
  description : String
  created_at : String
  tags : List String
deriving DecidableEq

/-- A lineage edge row (class Lineage, src/app.py lines 80-85). -/
structure Lineage where
  id : ℤ
  src_asset_id : ℤ
  dst_asset_id : ℤ
  relation : String
deriving DecidableEq

/-- The entity store: the assets and lineage tables, plus the next
autoincrement primary key for the lineage table. -/
structure Store where
  assets : List Asset
  edges : List Lineage
  next_edge_id : ℤ
deriving DecidableEq

/-- Store invariant maintained by the database: asset primary keys are
unique, and every stored edge id is below the next autoincrement id. -/
def Store.Wf (s : Store) : Prop :=
  (s.assets.map Asset.id).Nodup ∧ ∀ e ∈ s.edges, e.id < s.next_edge_id

instance (s : Store) : Decidable s.Wf := by
  unfold Store.Wf; infer_instance

/-- Primary-key lookup in the assets table (db.query(Asset).get(id)). -/
def getAsset (s : Store) (aid : ℤ) : Option Asset :=
  s.assets.find? (fun a => a.id == aid)

/-- The rendering of an asset by asset_to_dict (src/app.py lines
152-160). -/
structure AssetView where
  id : ℤ
  name : String
  type : String
  description : String
  created_at : String
  tags : List String
deriving DecidableEq

/-- asset_to_dict (src/app.py lines 152-160). -/
def asset_to_dict (a : Asset) : AssetView :=
  ⟨a.id, a.name, a.type, a.description, a.created_at, a.tags⟩

/-- The rendering of an edge in the get_lineage response (src/app.py
line 317). -/
structure EdgeView where
  id : ℤ
  source : ℤ
  target : ℤ
  relation : String
deriving DecidableEq

/-- The edge rendering of src/app.py line 317. -/
def edge_to_dict (e : Lineage) : EdgeView :=
  ⟨e.id, e.src_asset_id, e.dst_asset_id, e.relation⟩

/-- Error responses of the excluded HTTP layer: 400 (ValidationError)
and 404 (NotFoundError). -/
inductive ApiErr where
  | validation
  | notFound
deriving DecidableEq

instance {ε α : Type} [DecidableEq ε] [DecidableEq α] : DecidableEq (Except ε α) := fun x y =>
  match x, y with
  | .error e, .error f => decidable_of_iff (e = f) (by simp)
  | .error _, .ok _ => isFalse (by simp)
  | .ok _, .error _ => isFalse (by simp)
  | .ok a, .ok b => decidable_of_iff (a = b) (by simp)

/-- Insert-or-replace on an id-keyed association list: the model of
assignment into a Python dict keyed by asset id (src/app.py line 316).
A repeated key overwrites in place; a fresh key appends. -/
def upsert (m : List (ℤ × AssetView)) (k : ℤ) (v : AssetView) : List (ℤ × AssetView) :=
  if m.any (fun p => p.1 == k) then
    m.map (fun p => if p.1 == k then (k, v) else p)
  else
    m ++ [(k, v)]

/-- get_lineage (src/app.py lines 308-320): the one-hop neighborhood of
asset_id. The Python set node_ids is modelled by the list of the
elements thrown into it, used only through membership. Returns
(nodes, edges). -/
def get_lineage (s : Store) (asset_id : ℤ) : List AssetView × List EdgeView :=
  let outgoing := s.edges.filter (fun e => e.src_asset_id == asset_id)
  let incoming := s.edges.filter (fun e => e.dst_asset_id == asset_id)
  let node_ids : List ℤ :=
    asset_id :: (outgoing.map Lineage.dst_asset_id ++ incoming.map Lineage.src_asset_id)
  let matched := s.assets.filter (fun a => node_ids.contains a.id)
  let nodes := (matched.foldl (fun m a => upsert m a.id (asset_to_dict a)) []).map Prod.snd
  let edges := (outgoing ++ incoming).map edge_to_dict
  (nodes, edges)

/-- add_lineage (src/app.py lines 281-305): reject a missing or falsy
(zero) endpoint id with 400, a nonexistent endpoint asset with 404;
otherwise append a fresh edge and return its id. The state is threaded
explicitly; failures leave it unchanged. -/
def add_lineage (s : Store) (src_id dst_id : Option ℤ) (relation : Option String) :
    Store × Except ApiErr ℤ :=
  let srcFalsy := match src_id with | none => true | some v => v == 0
  let dstFalsy := match dst_id with | none => true | some v => v == 0
  if srcFalsy || dstFalsy then
    (s, .error .validation)
  else
    let src := src_id.getD 0
    let dst := dst_id.getD 0
    match getAsset s src, getAsset s dst with
    | some _, some _ =>
        let edge : Lineage := ⟨s.next_edge_id, src, dst, relation.getD "derives"⟩
        ({ s with edges := s.edges ++ [edge], next_edge_id := s.next_edge_id + 1 },
         .ok edge.id)
    | _, _ => (s, .error .notFound)

/-- delete_asset (src/app.py lines 231-243): 404 when the asset does
not exist, otherwise delete the asset row. No cascade runs on the
lineage table: the session holds no relationship to Lineage and SQLite
foreign keys are not enforced, so edge rows are left as they are. -/
def delete_asset (s : Store) (aid : ℤ) : Store × Except ApiErr Unit :=
  match getAsset s aid with
  | none => (s, .error .notFound)
  | some _ => ({ s with assets := s.assets.filter (fun a => !(a.id == aid)) }, .ok ())

/-- A small concrete store mirroring the seeded demo data: two assets
and one lineage edge from asset 1 to asset 2. -/
def demoStore : Store :=
  ⟨[⟨1, "Policy_Master", "policy", "", "", []⟩,
    ⟨2, "Claim_Intake_2025", "claim", "", "", []⟩],
   [⟨1, 1, 2, "feeds"⟩], 2⟩

/-- A concrete store with one asset and no edges, used to exercise
self-loop edge creation. -/
def selfLoopStore : Store :=
  ⟨[⟨1, "Reserve_Model_v1", "reserve_model", "", "", []⟩], [], 1⟩

/-- A concrete store holding an asset whose id is 0, used to exercise
the falsy-id check of add_lineage. -/
def zeroIdStore : Store :=
  ⟨[⟨0, "Zero", "policy", "", "", []⟩, ⟨1, "One", "claim", "", "", []⟩], [], 1⟩

/-! ## Lemmas on the scoring loop -/

lemma applyRules_go (c : Claim) (rules : List ScoreRule) :
    ∀ acc : ℚ × List String,
      rules.foldl
          (fun acc r =>
            match r.pred c with
            | some true => (acc.1 + r.weight, acc.2 ++ [r.note])
            | _ => acc)
          acc
        = (acc.1 + ((rules.filter (triggers c)).map ScoreRule.weight).sum,
           acc.2 ++ (rules.filter (triggers c)).map ScoreRule.note) := by
  induction rules with
  | nil => intro acc; simp
  | cons r rs ih =>
      intro acc
      rw [List.foldl_cons]
      cases hp : r.pred c with
      | none =>
          have ht : triggers c r = false := by simp [triggers, hp]
          simp only [hp, List.filter_cons, ht, ih, Bool.false_eq_true, if_false]
      | some b =>
          cases b with
          | false =>
              have ht : triggers c r = false := by simp [triggers, hp]
              simp only [hp, List.filter_cons, ht, ih, Bool.false_eq_true, if_false]
          | true =>
              have ht : triggers c r = true := by simp [triggers, hp]
              simp only [hp, List.filter_cons, ht, if_true, ih, List.map_cons,
                List.sum_cons, List.append_assoc, List.singleton_append, Prod.mk.injEq]
              constructor
              · ring
              · trivial

/-- The scoring loop computes the sum of the weights and the list of
the reasons of the triggered rules, in table order. -/
lemma applyRules_eq (rules : List ScoreRule) (c : Claim) :
    applyRules rules c
      = (((rules.filter (triggers c)).map ScoreRule.weight).sum,
         (rules.filter (triggers c)).map ScoreRule.note) := by
  unfold applyRules
  rw [applyRules_go]
  simp

lemma RULES_weight_nonneg : ∀ r ∈ RULES, 0 ≤ r.weight := by
  intro r hr
  simp only [RULES, List.mem_cons, List.not_mem_nil, or_false] at hr
  rcases hr with rfl | rfl | rfl | rfl <;> norm_num

lemma triggered_weight_sum_nonneg (c : Claim) :
    0 ≤ ((RULES.filter (triggers c)).map ScoreRule.weight).sum := by
  apply List.sum_nonneg
  intro x hx
  rcases List.mem_map.mp hx with ⟨r, hr, rfl⟩
  exact RULES_weight_nonneg r (List.mem_of_mem_filter hr)

/-- Two claims on which every rule predicate evaluates the same way get
the same result from the scoring loop. -/
lemma applyRules_congr (rules : List ScoreRule) (c1 c2 : Claim)
    (h : ∀ r ∈ rules, r.pred c1 = r.pred c2) :
    applyRules rules c1 = applyRules rules c2 := by
  rw [applyRules_eq, applyRules_eq]
  have hf : rules.filter (triggers c1) = rules.filter (triggers c2) :=
    List.filter_congr (fun r hr => by simp [triggers, h r hr])
  rw [hf]

/-- Growing the set of triggered rules can only grow the weight sum. -/
lemma sum_filter_weight_mono (rules : List ScoreRule) (c c' : Claim)
    (h : ∀ r ∈ rules, triggers c r = true → triggers c' r = true)
    (hw : ∀ r ∈ rules, 0 ≤ r.weight) :
    ((rules.filter (triggers c)).map ScoreRule.weight).sum
      ≤ ((rules.filter (triggers c')).map ScoreRule.weight).sum := by
  induction rules with
  | nil => simp
  | cons r rs ih =>
      have hrs := ih (fun x hx => h x (List.mem_cons_of_mem _ hx))
        (fun x hx => hw x (List.mem_cons_of_mem _ hx))
      cases ht : triggers c r with
      | true =>
          have ht' : triggers c' r = true := h r (List.mem_cons_self _ _) ht
          simp only [List.filter_cons, ht, ht', if_true, List.map_cons, List.sum_cons]
          exact add_le_add_left hrs _
      | false =>
          cases ht' : triggers c' r with
          | true =>
              simp only [List.filter_cons, ht, ht', Bool.false_eq_true, if_false, if_true,
                List.map_cons, List.sum_cons]
              exact le_add_of_nonneg_of_le (hw r (List.mem_cons_self _ _)) hrs
          | false =>
              simpa only [List.filter_cons, ht, ht', Bool.false_eq_true, if_false] using hrs

/-! ## Claim theorems on the scoring engine -/

/-- C1: for every scoring input, score_claim returns the sum of the
weights of the rules, taken in table order, whose predicates hold on
the normalized claim (a predicate that raises is not triggered), the
sum clamped to [0, 100]; the label is SUSPICIOUS exactly when the
clamped score is at least 60 and OK otherwise; and the reasons are the
triggered rules' reason strings in table order. -/
theorem score_claim_matches_rule_table (input : ScoreInput) :
    (score_claim input).fraud_score
        = min 100 (max 0
            (((RULES.filter (triggers (normClaim input))).map ScoreRule.weight).sum))
  ∧ ((score_claim input).fraud_label
        = if (score_claim input).fraud_score ≥ 60 then "SUSPICIOUS" else "OK")
  ∧ (score_claim input).reasons
        = (RULES.filter (triggers (normClaim input))).map ScoreRule.note := by
  have hnn := triggered_weight_sum_nonneg (normClaim input)
  simp only [score_claim, applyRules_eq, THRESHOLD]
  refine ⟨?_, ?_, ?_⟩
  · rw [max_eq_right hnn, min_comm]
  · trivial
  · trivial

/-- C6: the score, label and reasons produced by score_claim depend
only on the four attributes amount, prior_claims, channel and city of
the input. -/
theorem score_claim_pure_in_four_fields (i1 i2 : ScoreInput)
    (ha : i1.amount = i2.amount) (hp : i1.prior_claims = i2.prior_claims)
    (hc : i1.channel = i2.channel) (hy : i1.city = i2.city) :
    (score_claim i1).fraud_score = (score_claim i2).fraud_score
  ∧ (score_claim i1).fraud_label = (score_claim i2).fraud_label
  ∧ (score_claim i1).reasons = (score_claim i2).reasons := by
  have hpred : ∀ r ∈ RULES, r.pred (normClaim i1) = r.pred (normClaim i2) := by
    intro r hr
    simp only [RULES, List.mem_cons, List.not_mem_nil, or_false] at hr
    rcases hr with rfl | rfl | rfl | rfl <;> simp [normClaim, ha, hp, hc, hy]
  have happ := applyRules_congr RULES (normClaim i1) (normClaim i2) hpred
  simp only [score_claim, happ]
  exact ⟨trivial, trivial, trivial⟩

/-- Witness for C6: two inputs identical in the four scored attributes
but with different claim and policy numbers score identically. -/
theorem score_claim_pure_in_four_fields_witness :
    (score_claim ⟨some "C-1", none, some 5000, some 1, some "online", some "Chennai"⟩).fraud_score
        = (score_claim ⟨some "C-2", some "P-1", some 5000, some 1, some "online", some "Chennai"⟩).fraud_score
  ∧ (score_claim ⟨some "C-1", none, some 5000, some 1, some "online", some "Chennai"⟩).fraud_label
        = (score_claim ⟨some "C-2", some "P-1", some 5000, some 1, some "online", some "Chennai"⟩).fraud_label
  ∧ (score_claim ⟨some "C-1", none, some 5000, some 1, some "online", some "Chennai"⟩).reasons
        = (score_claim ⟨some "C-2", some "P-1", some 5000, some 1, some "online", some "Chennai"⟩).reasons :=
  score_claim_pure_in_four_fields _ _ rfl rfl rfl rfl

/-- C7: a claim with amount exactly 300000 does not trigger rule 1,
whose comparison is strict, while a claim with prior_claims exactly 3
does trigger rule 2, whose comparison is greater-or-equal. -/
theorem rule_boundaries_strict_and_ge :
    (∀ c : Claim, c.amount = 300000 →
        (RULES.get ⟨0, by decide⟩).pred c = some false)
  ∧ (∀ c : Claim, c.prior_claims = 3 →
        (RULES.get ⟨1, by decide⟩).pred c = some true) := by
  constructor
  · intro c h
    show some (decide (c.amount > 300000)) = some false
    rw [h]
    norm_num
  · intro c h
    show some (decide (c.prior_claims ≥ 3)) = some true
    rw [h]
    norm_num

/-- Witness for C7: concrete claims sitting exactly on the two
boundaries. -/
theorem rule_boundaries_strict_and_ge_witness :
    (RULES.get ⟨0, by decide⟩).pred ⟨"NA", "NA", 300000, "agent", "x", 0⟩ = some false
  ∧ (RULES.get ⟨1, by decide⟩).pred ⟨"NA", "NA", 0, "agent", "x", 3⟩ = some true :=
  ⟨rule_boundaries_strict_and_ge.1 _ rfl, rule_boundaries_strict_and_ge.2 _ rfl⟩

/-- C8: scoring is monotone in the triggered rules: if every rule
triggered on the first input is also triggered on the second, the
returned score does not decrease. -/
theorem score_claim_monotone_in_triggers (i i' : ScoreInput)
    (h : ∀ r ∈ RULES, triggers (normClaim i) r = true → triggers (normClaim i') r = true) :
    (score_claim i).fraud_score ≤ (score_claim i').fraud_score := by
  simp only [score_claim, applyRules_eq]
  exact min_le_min (sum_filter_weight_mono RULES _ _ h RULES_weight_nonneg) (le_refl 100)

/-- Witness for C8: raising the amount from 299999 to 300001, all other
attributes unchanged, does not decrease the score. -/
theorem score_claim_monotone_in_triggers_witness :
    (score_claim ⟨none, none, some 299999, some 0, some "agent", some "x"⟩).fraud_score
      ≤ (score_claim ⟨none, none, some 300001, some 0, some "agent", some "x"⟩).fraud_score :=
  score_claim_monotone_in_triggers _ _ (by decide)

/-- C10: scoring an input with every field omitted, so that amount and
prior_claims default to 0 and channel and city to the empty string,
returns score 10, label OK, and the single reason of the unknown-city
rule, because the empty city string is in the unknown-city set. -/
theorem score_claim_all_defaults :
    score_claim ⟨none, none, none, none, none, none⟩
      = ⟨"NA", "OK", 10, ["Missing/unknown city"]⟩ := by
  with_unfolding_all rfl

/-! ## Lemmas on the lineage graph -/

lemma upsert_fresh (m : List (ℤ × AssetView)) (k : ℤ) (v : AssetView)
    (h : ∀ p ∈ m, p.1 ≠ k) : upsert m k v = m ++ [(k, v)] := by
  unfold upsert
  rw [if_neg]
  simp only [List.any_eq_true, beq_iff_eq, not_exists, not_and]
  exact h

/-- Folding dict insertion over records with pairwise distinct, fresh
ids just appends the key-value pairs in order. -/
lemma foldl_upsert (l : List Asset) :
    ∀ m : List (ℤ × AssetView),
      (∀ x ∈ l, ∀ p ∈ m, p.1 ≠ x.id) → (l.map Asset.id).Nodup →
      l.foldl (fun m x => upsert m x.id (asset_to_dict x)) m
        = m ++ l.map (fun x => (x.id, asset_to_dict x)) := by
  induction l with
  | nil => intro m _ _; simp
  | cons x xs ih =>
      intro m hfresh hnd
      rw [List.foldl_cons,
        upsert_fresh m x.id _ (fun p hp => hfresh x (List.mem_cons_self _ _) p hp),
        ih (m ++ [(x.id, asset_to_dict x)]) ?_ ?_]
      · simp
      · intro y hy p hp
        rcases List.mem_append.mp hp with hpm | hps
        · exact hfresh y (List.mem_cons_of_mem _ hy) p hpm
        · have : p = (x.id, asset_to_dict x) := by simpa using hps
          subst this
          have hx : x.id ∉ xs.map Asset.id := (List.nodup_cons.mp hnd).1
          intro hcontra
          simp only at hcontra
          exact hx (hcontra ▸ List.mem_map_of_mem Asset.id hy)
      · exact (List.nodup_cons.mp hnd).2

lemma contains_cons_append (a x : ℤ) (l1 l2 : List ℤ) :
    ((a :: (l1 ++ l2)).contains x) = (x == a || l1.contains x || l2.contains x) := by
  rw [Bool.eq_iff_iff]
  simp [or_assoc]

/-- Renderings of edges whose ids are all below n never collide with a
rendered edge of id n. -/
lemma count_map_eq_zero_of_id_lt (l : List Lineage) (n : ℤ)
    (hl : ∀ e ∈ l, e.id < n) (v : EdgeView) (hv : v.id = n) :
    (l.map edge_to_dict).count v = 0 := by
  rw [List.count_eq_zero]
  intro hmem
  rcases List.mem_map.mp hmem with ⟨e, he, hve⟩
  have hid : e.id = n := by
    have : (edge_to_dict e).id = v.id := by rw [hve]
    simpa [edge_to_dict, hv] using this
  exact absurd (hl e he) (by simp [hid])

/-! ## Claim theorems on the lineage graph -/

/-- C2: for every store whose asset primary keys are unique, the edges
returned by get_lineage are the outgoing edges followed by the incoming
edges, each rendered as id, source, target, relation; and the nodes are
the asset records, deduplicated by id, whose id is the center, the
destination of an outgoing edge, or the source of an incoming edge. -/
theorem get_lineage_nodes_edges_spec (s : Store) (a : ℤ)
    (h : (s.assets.map Asset.id).Nodup) :
    (get_lineage s a).2
        = (s.edges.filter (fun e => e.src_asset_id == a)
            ++ s.edges.filter (fun e => e.dst_asset_id == a)).map edge_to_dict
  ∧ (get_lineage s a).1
        = (s.assets.filter (fun x =>
              x.id == a
            || ((s.edges.filter (fun e => e.src_asset_id == a)).map Lineage.dst_asset_id).contains x.id
            || ((s.edges.filter (fun e => e.dst_asset_id == a)).map Lineage.src_asset_id).contains x.id)).map asset_to_dict := by
  constructor
  · rfl
  · simp only [get_lineage]
    rw [List.filter_congr (fun x _ => contains_cons_append a x.id _ _)]
    rw [foldl_upsert _ [] (by simp) ?_]
    · simp [List.map_map, Function.comp]
    · exact ((List.filter_sublist _).map Asset.id).nodup h

/-- Witness for C2: the neighborhood of asset 1 in the demo store. -/
theorem get_lineage_nodes_edges_spec_witness :
    (get_lineage demoStore 1).2
        = (demoStore.edges.filter (fun e => e.src_asset_id == 1)
            ++ demoStore.edges.filter (fun e => e.dst_asset_id == 1)).map edge_to_dict
  ∧ (get_lineage demoStore 1).1
        = (demoStore.assets.filter (fun x =>
              x.id == 1
            || ((demoStore.edges.filter (fun e => e.src_asset_id == 1)).map Lineage.dst_asset_id).contains x.id
            || ((demoStore.edges.filter (fun e => e.dst_asset_id == 1)).map Lineage.src_asset_id).contains x.id)).map asset_to_dict :=
  get_lineage_nodes_edges_spec demoStore 1 (by decide)

/-- C3: add_lineage rejects a missing or zero endpoint id with a
validation error, rejects a nonexistent endpoint asset with a not-found
error, and every failure leaves the store unchanged. -/
theorem add_lineage_failure_cases (s : Store) (src_id dst_id : Option ℤ) (rel : Option String) :
    ((src_id = none ∨ src_id = some 0 ∨ dst_id = none ∨ dst_id = some 0) →
        add_lineage s src_id dst_id rel = (s, .error .validation))
  ∧ (∀ sv dv, src_id = some sv → dst_id = some dv → sv ≠ 0 → dv ≠ 0 →
        (getAsset s sv = none ∨ getAsset s dv = none) →
        add_lineage s src_id dst_id rel = (s, .error .notFound))
  ∧ (∀ e : ApiErr, (add_lineage s src_id dst_id rel).2 = .error e →
        (add_lineage s src_id dst_id rel).1 = s) := by
  refine ⟨?_, ?_, ?_⟩
  · intro h
    rcases h with rfl | rfl | rfl | rfl <;> simp [add_lineage]
  · intro sv dv hs hd hsv hdv hnone
    subst hs; subst hd
    have h1 : (sv == 0) = false := by simpa using hsv
    have h2 : (dv == 0) = false := by simpa using hdv
    unfold add_lineage
    simp only [h1, h2, Bool.or_self, if_false]
    rcases hnone with h | h <;>
      cases hx : getAsset s sv <;> cases hy : getAsset s dv <;>
        simp_all
  · intro e he
    cases src_id with
    | none => rfl
    | some sv =>
        cases dst_id with
        | none => simp [add_lineage]
        | some dv =>
            by_cases h0 : (sv == 0 || dv == 0) = true
            · simp [add_lineage, h0]
            · cases hx : getAsset s sv <;> cases hy : getAsset s dv <;>
                simp_all [add_lineage]

/-- Witness for C3: a missing source id is a validation error and a
nonexistent destination asset is a not-found error, with the demo store
returned unchanged. -/
theorem add_lineage_failure_cases_witness :
    add_lineage demoStore none (some 2) none = (demoStore, .error .validation)
  ∧ add_lineage demoStore (some 1) (some 99) none = (demoStore, .error .notFound) :=
  ⟨(add_lineage_failure_cases demoStore none (some 2) none).1 (Or.inl rfl),
   (add_lineage_failure_cases demoStore (some 1) (some 99) none).2.1 1 99 rfl rfl
      (by decide) (by decide) (Or.inr (by decide))⟩

/-- Counterexample for C5: the pair (1, 1) refers to existing assets,
the self-loop edge is created successfully, yet the neighborhood of its
only endpoint lists the new edge twice, not exactly once; and the pair
(0, 1) also refers to existing assets in a store holding an asset of id
0, yet createEdge fails on it with a validation error instead of
succeeding, because 0 is treated as a missing id. -/
theorem self_loop_edge_listed_twice :
    ((add_lineage selfLoopStore (some 1) (some 1) none).2 = Except.ok 1
      ∧ ((get_lineage (add_lineage selfLoopStore (some 1) (some 1) none).1 1).2).count
            ⟨1, 1, 1, "derives"⟩ = 2)
  ∧ ((getAsset zeroIdStore 0).isSome = true
      ∧ (getAsset zeroIdStore 1).isSome = true
      ∧ (add_lineage zeroIdStore (some 0) (some 1) none).2 = Except.error .validation) := by
  decide

/-- C5 as amended: for distinct nonzero endpoint ids referring to
existing assets in a well-formed store, add_lineage succeeds and the
neighborhood of either endpoint lists the new edge exactly once. -/
theorem add_then_get_includes_edge_once (s : Store) (src dst : ℤ) (rel : Option String)
    (hwf : Store.Wf s) (hsrc0 : src ≠ 0) (hdst0 : dst ≠ 0) (hne : src ≠ dst)
    (hsrc : (getAsset s src).isSome = true) (hdst : (getAsset s dst).isSome = true) :
    ∃ s', add_lineage s (some src) (some dst) rel = (s', Except.ok s.next_edge_id)
      ∧ (get_lineage s' src).2.count
          (edge_to_dict ⟨s.next_edge_id, src, dst, rel.getD "derives"⟩) = 1
      ∧ (get_lineage s' dst).2.count
          (edge_to_dict ⟨s.next_edge_id, src, dst, rel.getD "derives"⟩) = 1 := by
  obtain ⟨sa, hsa⟩ := Option.isSome_iff_exists.mp hsrc
  obtain ⟨da, hda⟩ := Option.isSome_iff_exists.mp hdst
  have h0s : (src == 0) = false := by simpa using hsrc0
  have h0d : (dst == 0) = false := by simpa using hdst0
  have hsd : (src == dst) = false := by simpa using hne
  have hds : (dst == src) = false := by simpa using Ne.symm hne
  refine ⟨{ s with
      edges := s.edges ++ [⟨s.next_edge_id, src, dst, rel.getD "derives"⟩],
      next_edge_id := s.next_edge_id + 1 }, ?_, ?_, ?_⟩
  · simp [add_lineage, h0s, h0d, hsa, hda]
  · simp only [get_lineage, List.filter_append, List.map_append, List.count_append]
    rw [count_map_eq_zero_of_id_lt _ s.next_edge_id
        (fun e he => hwf.2 e (List.mem_of_mem_filter he)) _ rfl,
      count_map_eq_zero_of_id_lt _ s.next_edge_id
        (fun e he => hwf.2 e (List.mem_of_mem_filter he)) _ rfl]
    simp [hds]
  · simp only [get_lineage, List.filter_append, List.map_append, List.count_append]
    rw [count_map_eq_zero_of_id_lt _ s.next_edge_id
        (fun e he => hwf.2 e (List.mem_of_mem_filter he)) _ rfl,
      count_map_eq_zero_of_id_lt _ s.next_edge_id
        (fun e he => hwf.2 e (List.mem_of_mem_filter he)) _ rfl]
    simp [hsd]

/-- Witness for the amended C5: adding the edge from asset 1 to asset 2
on the demo store and reading back both neighborhoods. -/
theorem add_then_get_includes_edge_once_witness :
    ∃ s', add_lineage demoStore (some 1) (some 2) none
        = (s', Except.ok demoStore.next_edge_id)
      ∧ (get_lineage s' 1).2.count
          (edge_to_dict ⟨demoStore.next_edge_id, 1, 2, "derives"⟩) = 1
      ∧ (get_lineage s' 2).2.count
          (edge_to_dict ⟨demoStore.next_edge_id, 1, 2, "derives"⟩) = 1 :=
  add_then_get_includes_edge_once demoStore 1 2 none (by decide) (by decide)
    (by decide) (by decide) (by decide) (by decide)

/-- C4 as evaluated on the code: deleting asset 1 from the demo store
succeeds and removes the asset row, yet the lineage edge with source 1
is still stored afterwards, so deletion does not cascade-invalidate
edges referencing the deleted asset. -/
theorem delete_asset_leaves_dangling_edge :
    (delete_asset demoStore 1).2 = Except.ok ()
  ∧ (delete_asset demoStore 1).1.assets.all (fun a => !(a.id == 1)) = true
  ∧ ⟨1, 1, 2, "feeds"⟩ ∈ (delete_asset demoStore 1).1.edges := by
  decide

/-- C9: every edge returned by get_lineage has the queried asset as its
source or as its target. -/
theorem get_lineage_edges_touch_center (s : Store) (a : ℤ) (v : EdgeView)
    (h : v ∈ (get_lineage s a).2) : v.source = a ∨ v.target = a := by
  simp only [get_lineage, List.mem_map, List.mem_append, List.mem_filter] at h
  rcases h with ⟨e, he, rfl⟩
  rcases he with ⟨-, hsrc⟩ | ⟨-, hdst⟩
  · exact Or.inl (by simpa [edge_to_dict] using hsrc)
  · exact Or.inr (by simpa [edge_to_dict] using hdst)

/-- Witness for C9: the demo edge as listed in the neighborhood of
asset 1 touches asset 1. -/
theorem get_lineage_edges_touch_center_witness :
    (⟨1, 1, 2, "feeds"⟩ : EdgeView).source = 1 ∨ (⟨1, 1, 2, "feeds"⟩ : EdgeView).target = 1 :=
  get_lineage_edges_touch_center demoStore 1 ⟨1, 1, 2, "feeds"⟩ (by decide)

end QVANTO
